import Mathlib

/-!
Shallow embedding of the spaceship-launch core of the repository:
the particle simulator of `src/flameParticleSystem.ts` and the launch
sequencer of `src/spaceshipAnimation.ts`.

Modelling conventions:
* JavaScript IEEE-754 doubles are idealised as exact rationals; every
  arithmetic expression that the verified claims depend on is polynomial or
  piecewise-linear, so the idealisation is faithful up to rounding.
* The function `Math.random()` is modelled as a stream `g` of draws together
  with a cursor index that each operation threads through in the exact order
  the source draws.  `ValidRand g` states every draw lies in `[0, 1)`, the
  contract of `Math.random`.
* The primitives `Math.sin` and `Math.PI` only feed the decorative rotation
  values; they are taken as parameters (`MathPrims`) so the development
  stays executable.
* A call of `performance.now()` inside a frame handler is modelled as the
  timestamp argument of that frame.
-/

/-- A 3-component vector, mirroring the `x`, `y`, `z` fields of
`THREE.Vector3`. -/
structure Vec3 where
  x : ℚ
  y : ℚ
  z : ℚ
deriving DecidableEq, Repr

/-- Componentwise vector addition, mirroring `Vector3.add`. -/
def Vec3.add (a b : Vec3) : Vec3 :=
  ⟨a.x + b.x, a.y + b.y, a.z + b.z⟩

/-- Mirrors `Vector3.lerpVectors(v1, v2, alpha)`: componentwise
`v1 + (v2 - v1) * alpha`. -/
def Vec3.lerpVectors (v1 v2 : Vec3) (alpha : ℚ) : Vec3 :=
  ⟨v1.x + (v2.x - v1.x) * alpha,
   v1.y + (v2.y - v1.y) * alpha,
   v1.z + (v2.z - v1.z) * alpha⟩

/-- Mirrors `a.lerp(v, alpha)`: componentwise `a + (v - a) * alpha`. -/
def Vec3.lerp (a v : Vec3) (alpha : ℚ) : Vec3 :=
  ⟨a.x + (v.x - a.x) * alpha,
   a.y + (v.y - a.y) * alpha,
   a.z + (v.z - a.z) * alpha⟩

/-- One slot of the particle pool: the column-wise arrays `positions`,
`velocities`, `colors`, `sizes`, `lifespans` of the particle simulator,
gathered row-wise per index. -/
structure Particle where
  pos : Vec3
  vel : Vec3
  colR : ℚ
  colG : ℚ
  colB : ℚ
  size : ℚ
  life : ℚ
deriving DecidableEq, Repr

/-- Contract of the random source backing `Math.random()`: every draw is in
`[0, 1)`. -/
def ValidRand (g : ℕ → ℚ) : Prop := ∀ n, 0 ≤ g n ∧ g n < 1

/-- Body of the `initializeParticles` loop for one slot.  Draw order follows
the source exactly: pos.x, pos.y, pos.z, vel.x, vel.y, vel.z, green, size,
life (9 draws). -/
def initParticle (g : ℕ → ℚ) (k : ℕ) : Particle :=
  { pos := ⟨(g k - 0.5) * 0.3, g (k + 1) * (-0.5), (g (k + 2) - 0.5) * 0.3⟩
    vel := ⟨(g (k + 3) - 0.5) * 0.2, -2 - g (k + 4) * 1.5, (g (k + 5) - 0.5) * 0.2⟩
    colR := 1
    colG := 0.5 + g (k + 6) * 0.5
    colB := 0
    size := 0.3 + g (k + 7) * 0.4
    life := 0.5 + g (k + 8) }

/-- Mirrors `initializeParticles`: builds `n` slots in index order, 9 draws
each. -/
def initializeParticles (g : ℕ → ℚ) (k : ℕ) : ℕ → List Particle
  | 0 => []
  | n + 1 => initParticle g k :: initializeParticles g (k + 9) n

/-- Mirrors `resetParticle(index)`: respawn a slot in place.  Draw order
follows the source exactly: pos.x, pos.z, vel.x, vel.y, vel.z, green, size,
life (8 draws; the y position is set to 0 without a draw).  Note the
vertical velocity formula `-2 - r` differs from the `-2 - r * 1.5` of
`initParticle`. -/
def resetParticle (g : ℕ → ℚ) (k : ℕ) : Particle :=
  { pos := ⟨(g k - 0.5) * 0.3, 0, (g (k + 1) - 0.5) * 0.3⟩
    vel := ⟨(g (k + 2) - 0.5) * 0.2, -2 - g (k + 3), (g (k + 4) - 0.5) * 0.2⟩
    colR := 1
    colG := 0.5 + g (k + 5) * 0.5
    colB := 0
    size := 0.3 + g (k + 6) * 0.4
    life := 0.5 + g (k + 7) }

/-- First half of the `update` loop body for one slot, with `r` the wind
draw: integrate position with the old velocity, add gravity to the y
velocity, add the (un-scaled) wind perturbation to the x velocity, fade the
green channel, shrink the size, decrement the life. -/
def integrateParticle (r : ℚ) (dt : ℚ) (p : Particle) : Particle :=
  { pos := ⟨p.pos.x + p.vel.x * dt, p.pos.y + p.vel.y * dt, p.pos.z + p.vel.z * dt⟩
    vel := ⟨p.vel.x + (r - 0.5) * 0.2, p.vel.y + dt * 3, p.vel.z⟩
    colR := p.colR
    colG := p.colG - dt
    colB := p.colB
    size := p.size - dt * 0.5
    life := p.life - dt }

/-- Full `update` loop body for one slot: integrate, then respawn in place
when the decremented life is `≤ 0` (the respawn overwrites every field).
Returns the new slot and the advanced random cursor. -/
def updateParticle (g : ℕ → ℚ) (k : ℕ) (dt : ℚ) (p : Particle) : Particle × ℕ :=
  let p1 := integrateParticle (g k) dt p
  if p1.life ≤ 0 then (resetParticle g (k + 1), k + 9) else (p1, k + 1)

/-- The `update` loop over all slots, threading the random cursor. -/
def updateList (g : ℕ → ℚ) (dt : ℚ) : ℕ → List Particle → List Particle × ℕ
  | k, [] => ([], k)
  | k, p :: ps =>
    let q := updateParticle g k dt p
    let qs := updateList g dt q.2 ps
    (q.1 :: qs.1, qs.2)

/-- State of the particle simulator: the pool, the `particles.visible` flag
and the `particles.position` of the whole point cloud. -/
structure FlameParticleSystem where
  particles : List Particle
  visible : Bool
  systemPos : Vec3
deriving DecidableEq, Repr

namespace FlameParticleSystem

/-- The constructor: allocates `maxParticles` slots via `initializeParticles`
(default 500); the point cloud starts invisible at the origin. -/
def create (g : ℕ → ℚ) (k : ℕ) (maxParticles : ℕ := 500) : FlameParticleSystem :=
  { particles := initializeParticles g k maxParticles
    visible := false
    systemPos := ⟨0, 0, 0⟩ }

/-- Mirrors `update(deltaTime, rocketPosition)`: early-returns when not
visible; otherwise runs the per-slot loop and moves the whole cloud to
`rocketPosition`. -/
def update (g : ℕ → ℚ) (k : ℕ) (deltaTime : ℚ) (rocketPosition : Vec3)
    (sys : FlameParticleSystem) : FlameParticleSystem × ℕ :=
  if sys.visible = false then (sys, k)
  else
    let qs := updateList g deltaTime k sys.particles
    ({ sys with particles := qs.1, systemPos := rocketPosition }, qs.2)

/-- Mirrors `start()`: only sets the visibility flag. -/
def start (sys : FlameParticleSystem) : FlameParticleSystem :=
  { sys with visible := true }

/-- Mirrors `stop()`: only clears the visibility flag. -/
def stop (sys : FlameParticleSystem) : FlameParticleSystem :=
  { sys with visible := false }

end FlameParticleSystem

/-- Iterated `update` calls with their per-call delta and emitter position,
threading the random cursor between calls. -/
def runUpdates (g : ℕ → ℚ) : ℕ → List (ℚ × Vec3) → FlameParticleSystem → FlameParticleSystem
  | _, [], sys => sys
  | k, s :: steps, sys =>
    let r := FlameParticleSystem.update g k s.1 s.2 sys
    runUpdates g r.2 steps r.1

/-- Per-slot life and color invariant maintained by the simulator: life is
strictly positive and at most 1.5, the red channel is 1 and the blue channel
is 0. -/
def ParticleInv (p : Particle) : Prop :=
  0 < p.life ∧ p.life ≤ 1.5 ∧ p.colR = 1 ∧ p.colB = 0

/-- What one `update` pass does to one slot: either the decremented life is
still positive and the slot is the integrated old slot (for some wind draw
in `[0, 1)`), or the decremented life is `≤ 0` and the slot was respawned by
`resetParticle` within the same pass. -/
def SlotStep (g : ℕ → ℚ) (dt : ℚ) (p q : Particle) : Prop :=
  (0 < p.life - dt ∧ ∃ r, 0 ≤ r ∧ r < 1 ∧ q = integrateParticle r dt p) ∨
  (p.life - dt ≤ 0 ∧ ∃ k, q = resetParticle g k)

/-! ### The launch sequencer -/

/-- Mirrors the union type of the source:
idle, flame-buildup, launching, completed. -/
inductive AnimationStage where
  | idle
  | flameBuildup
  | launching
  | completed
deriving DecidableEq, Repr

/-- The private `animationState` record of `SpaceshipAnimation`. -/
structure AnimationState where
  isAnimating : Bool
  stage : AnimationStage
  startTime : ℚ
  startPosition : Vec3
  targetPosition : Vec3
deriving DecidableEq, Repr

/-- Parameters of the embedding standing for `Math.sin` and `Math.PI`; they
feed only the decorative rotation values, which no verified claim
constrains. -/
structure MathPrims where
  msin : ℚ → ℚ
  mpi : ℚ

/-- State of the sequencer plus the externally-owned rig it mutates:
spaceship transform, camera, orbit controls, warp tunnel mesh and shader
uniforms, bloom pass, the particle system, the scheduled-frame handle, and a
counter of invocations of the `onComplete` constructor callback. -/
structure World where
  anim : AnimationState
  shipPos : Vec3
  shipRot : Vec3
  -- The advanced-rotation routine writes to the keys of the parameter table
  -- (roll / pitch / yaw), which are not Euler components of the rotation;
  -- the writes land on ad-hoc properties, modelled as separate fields.
  shipRotRoll : ℚ
  shipRotPitch : ℚ
  shipRotYaw : ℚ
  cameraPos : Vec3
  cameraLookAt : Vec3
  controlsEnabled : Bool
  warpVisible : Bool
  warpPos : Vec3
  warpScale : ℚ
  warpTime : ℚ
  warpActive : ℚ
  bloomStrength : ℚ
  flame : FlameParticleSystem
  rafPending : Bool
  onCompleteCalls : ℕ
deriving DecidableEq, Repr

namespace SpaceshipAnimation

/-- Constant `LAUNCH_DURATION = 4000` (ms). -/
def LAUNCH_DURATION : ℚ := 4000

/-- Constant `FLAME_BUILDUP_DURATION = 1500` (ms). -/
def FLAME_BUILDUP_DURATION : ℚ := 1500

/-- Constant `LAUNCH_HEIGHT = 500`. -/
def LAUNCH_HEIGHT : ℚ := 500

/-- Speed entry of the roll row of `rotationParams`. -/
def rollSpeed : ℚ := 2.5

/-- Amplitude entry of the roll row of `rotationParams`. -/
def rollAmplitude : ℚ := 0.15

/-- Speed entry of the pitch row of `rotationParams`. -/
def pitchSpeed : ℚ := 1.8

/-- Amplitude entry of the pitch row of `rotationParams`. -/
def pitchAmplitude : ℚ := 0.08

/-- Speed entry of the yaw row of `rotationParams`. -/
def yawSpeed : ℚ := 1.2

/-- Amplitude entry of the yaw row of `rotationParams`. -/
def yawAmplitude : ℚ := 0.12

/-- Mirrors `customEase(t)`: cubic ease-in-out,
`4 t³` below one half, else `1 - (-2t + 2)³ / 2`. -/
def customEase (t : ℚ) : ℚ :=
  if t < 0.5 then 4 * t * t * t else 1 - (-2 * t + 2) ^ 3 / 2

/-- Mirrors `initializeAnimation()`: flips the flags, stamps the stage timer
with the current time, captures the start position, computes the randomized
target (`x`, `y + LAUNCH_HEIGHT`, `z - 100`, plus the random offset
`((r - 0.5) * 10, 0, (r - 0.5) * 10)`), disables controls, shows the warp
tunnel at the ship, starts the particle system.  Consumes two random draws
at cursor `k`. -/
def initializeAnimation (g : ℕ → ℚ) (k : ℕ) (now : ℚ) (w : World) : World :=
  let randomOffset : Vec3 := ⟨(g k - 0.5) * 10, 0, (g (k + 1) - 0.5) * 10⟩
  { w with
    anim :=
      { isAnimating := true
        stage := .flameBuildup
        startTime := now
        startPosition := w.shipPos
        targetPosition :=
          Vec3.add ⟨w.shipPos.x, w.shipPos.y + LAUNCH_HEIGHT, w.shipPos.z - 100⟩
            randomOffset }
    controlsEnabled := false
    warpVisible := true
    warpPos := w.shipPos
    flame := w.flame.start }

/-- Mirrors `applyComplexRotation(progress)`: damped oscillation on the
genuine Euler axes x (pitch amplitude), y (yaw), z (roll). -/
def applyComplexRotation (mp : MathPrims) (progress : ℚ) (w : World) : World :=
  let oscillation := mp.msin (progress * mp.mpi * 2)
  let damping := 1 - progress
  { w with
    shipRot :=
      ⟨oscillation * pitchAmplitude * damping,
       oscillation * yawAmplitude * damping,
       oscillation * rollAmplitude * damping⟩ }

/-- Mirrors `applyAdvancedRotation(progress)`: wall-clock sinusoids written
to the ad-hoc roll / pitch / yaw properties. -/
def applyAdvancedRotation (mp : MathPrims) (now : ℚ) (progress : ℚ) (w : World) : World :=
  let time := now * 0.001
  let damping := mp.msin (progress * mp.mpi * 0.5)
  { w with
    shipRotRoll := mp.msin (time * rollSpeed) * rollAmplitude * damping
    shipRotPitch := mp.msin (time * pitchSpeed) * pitchAmplitude * damping
    shipRotYaw := mp.msin (time * yawSpeed) * yawAmplitude * damping }

/-- Mirrors `updateWarpTunnel(elapsed, progress)`. -/
def updateWarpTunnel (elapsed progress : ℚ) (w : World) : World :=
  { w with
    warpTime := elapsed * 0.001
    warpActive := min (progress * 2) 1
    warpPos := w.shipPos
    warpScale := 1 + progress * 0.5 }

/-- Mirrors `updateCameraAnimation(progress)`: exponential approach (factor
0.1 per frame) toward a point above-and-behind the ship. -/
def updateCameraAnimation (progress : ℚ) (w : World) : World :=
  let eased := customEase progress
  let cameraOffsetY := 50 * eased
  let cameraOffsetZ := 100 - eased * 75
  { w with
    cameraPos := w.cameraPos.lerp
      ⟨w.shipPos.x, w.shipPos.y + cameraOffsetY, w.shipPos.z + cameraOffsetZ⟩ 0.1
    cameraLookAt := w.shipPos }

/-- Mirrors `updateEffects(progress)`: bloom strength `1 + progress * 3`. -/
def updateEffects (progress : ℚ) (w : World) : World :=
  { w with bloomStrength := 1 + progress * 3 }

/-- Mirrors `cleanup()`: cancel the scheduled frame, stop the particle
system, hide the warp tunnel, re-enable controls, clear the animating flag.
The stage field is left untouched. -/
def cleanup (w : World) : World :=
  { w with
    rafPending := false
    flame := w.flame.stop
    warpVisible := false
    controlsEnabled := true
    anim := { w.anim with isAnimating := false } }

/-- Mirrors `completeAnimation()`: `cleanup()` then the fade-out.  The
fade-out builds a DOM overlay and navigates away; it touches none of the
modelled state, and in particular the `onComplete` constructor callback is
never invoked anywhere in the source. -/
def completeAnimation (w : World) : World :=
  cleanup w

/-- Mirrors `handleFlameBuildup(elapsed)`: clamped progress, damped shudder,
and on `progress ≥ 1` the transition to launching with the stage timer
re-stamped to the current time. -/
def handleFlameBuildup (mp : MathPrims) (now elapsed : ℚ) (w : World) : World :=
  let progress := min (elapsed / FLAME_BUILDUP_DURATION) 1
  let w1 := applyComplexRotation mp progress w
  if progress ≥ 1 then
    { w1 with anim := { w1.anim with stage := .launching, startTime := now } }
  else
    w1

/-- Mirrors `handleLaunching(elapsed)`: clamped progress, eased position lerp
from the captured start to the captured target, rotation / warp / camera /
bloom updates, and on `progress ≥ 1` the completion routine. -/
def handleLaunching (mp : MathPrims) (now elapsed : ℚ) (w : World) : World :=
  let progress := min (elapsed / LAUNCH_DURATION) 1
  let eased := customEase progress
  let w1 := { w with
    shipPos := Vec3.lerpVectors w.anim.startPosition w.anim.targetPosition eased }
  let w2 := applyAdvancedRotation mp now progress w1
  let w3 := updateWarpTunnel elapsed progress w2
  let w4 := updateCameraAnimation progress w3
  let w5 := updateEffects progress w4
  if progress ≥ 1 then completeAnimation w5 else w5

/-- Mirrors `animate(currentTime)`: early-return unless animating; dispatch
on the stage; render; schedule the next frame. -/
def animate (mp : MathPrims) (currentTime : ℚ) (w : World) : World :=
  if w.anim.isAnimating = false then w
  else
    let elapsed := currentTime - w.anim.startTime
    let w1 :=
      match w.anim.stage with
      | .flameBuildup => handleFlameBuildup mp currentTime elapsed w
      | .launching => handleLaunching mp currentTime elapsed w
      | _ => w
    { w1 with rafPending := true }

/-- Mirrors `startAnimation()`: silent no-op while already animating;
otherwise initialize and run the first frame at the current time. -/
def startAnimation (g : ℕ → ℚ) (k : ℕ) (mp : MathPrims) (now : ℚ) (w : World) : World :=
  if w.anim.isAnimating then w
  else animate mp now (initializeAnimation g k now w)

/-- Iterated frames: folding `animate` over a list of frame timestamps, as
the external `requestAnimationFrame` loop does with synthetic samples. -/
def runFrames (mp : MathPrims) (w : World) : List ℚ → World
  | [] => w
  | t :: ts => runFrames mp (animate mp t w) ts

/-- Number of frames at which the stage variable moves from flame-buildup to
launching. -/
def countFB2L (mp : MathPrims) (w : World) : List ℚ → ℕ
  | [] => 0
  | t :: ts =>
    (if w.anim.stage = .flameBuildup ∧ (animate mp t w).anim.stage = .launching
      then 1 else 0) + countFB2L mp (animate mp t w) ts

/-- Number of frames at which the sequence completes, i.e. the animating
flag falls from true to false (the completion routine ran). -/
def countCompletions (mp : MathPrims) (w : World) : List ℚ → ℕ
  | [] => 0
  | t :: ts =>
    (if w.anim.isAnimating = true ∧ (animate mp t w).anim.isAnimating = false
      then 1 else 0) + countCompletions mp (animate mp t w) ts

/-- The world is in the flame-buildup stage of a live launch. -/
def InBuildup (w : World) : Prop :=
  w.anim.isAnimating = true ∧ w.anim.stage = .flameBuildup

/-- The world is in the launching stage of a live launch. -/
def InLaunch (w : World) : Prop :=
  w.anim.isAnimating = true ∧ w.anim.stage = .launching

/-- The launch has completed: the animating flag is down while the stage
variable still reads launching (the source never assigns the completed
stage). -/
def Finished (w : World) : Prop :=
  w.anim.isAnimating = false ∧ w.anim.stage = .launching

end SpaceshipAnimation

/-! ### Concrete sample states used by witnesses and counterexamples -/

/-- Sample math primitives: a zero sine and a rational stand-in for pi. -/
def mpSample : MathPrims := ⟨fun _ => 0, 3⟩

/-- Sample random stream: constantly one half. -/
def gHalf : ℕ → ℚ := fun _ => 1 / 2

/-- Sample random stream: constantly zero. -/
def gZero : ℕ → ℚ := fun _ => 0

/-- A one-slot particle system with a fixed mid-cycle slot, visible. -/
def sampleFlame : FlameParticleSystem :=
  { particles := [{ pos := ⟨0, 0, 0⟩, vel := ⟨0, 0, 0⟩, colR := 1, colG := 1,
                    colB := 0, size := 0.5, life := 1 }]
    visible := true
    systemPos := ⟨0, 0, 0⟩ }

/-- An idle world with the ship at the origin, before any launch. -/
def sampleWorld : World :=
  { anim := { isAnimating := false, stage := .idle, startTime := 0,
              startPosition := ⟨0, 0, 0⟩, targetPosition := ⟨0, 0, 0⟩ }
    shipPos := ⟨0, 0, 0⟩
    shipRot := ⟨0, 0, 0⟩
    shipRotRoll := 0
    shipRotPitch := 0
    shipRotYaw := 0
    cameraPos := ⟨0, 0, 100⟩
    cameraLookAt := ⟨0, 0, 0⟩
    controlsEnabled := true
    warpVisible := false
    warpPos := ⟨0, 0, 0⟩
    warpScale := 1
    warpTime := 0
    warpActive := 0
    bloomStrength := 1
    flame := { sampleFlame with visible := false }
    rafPending := false
    onCompleteCalls := 0 }

/-- A world captured mid-launch: launching stage, timer stamped at 0, start
at the origin, target at the origin plus launch height and depth shift. -/
def launchingWorld : World :=
  { sampleWorld with
    anim := { isAnimating := true, stage := .launching, startTime := 0,
              startPosition := ⟨0, 0, 0⟩, targetPosition := ⟨0, 500, -100⟩ }
    controlsEnabled := false
    warpVisible := true
    flame := sampleFlame
    rafPending := true }

/-- A world captured during flame buildup: buildup stage of a live launch,
timer stamped at 0. -/
def buildupWorld : World :=
  { sampleWorld with
    anim := { isAnimating := true, stage := .flameBuildup, startTime := 0,
              startPosition := ⟨0, 0, 0⟩, targetPosition := ⟨0, 500, -100⟩ }
    controlsEnabled := false
    warpVisible := true
    flame := sampleFlame
    rafPending := true }

/-- Re-indexing of a respawn draw sequence into an initialization draw
sequence: the respawn draws are placed at the offsets where
`initParticle` reads the corresponding field, with the two init-only
offsets (y position and y velocity) filled with 0. -/
def respawnDrawAlign (g : ℕ → ℚ) (k : ℕ) : ℕ → ℚ
  | 0 => g k
  | 1 => 0
  | 2 => g (k + 1)
  | 3 => g (k + 2)
  | 4 => 0
  | 5 => g (k + 4)
  | 6 => g (k + 5)
  | 7 => g (k + 6)
  | 8 => g (k + 7)
  | _ => 0

/-! ## Development: helper lemmas -/

theorem validRand_gZero : ValidRand gZero :=
  fun _ => ⟨le_refl 0, by norm_num [gZero]⟩

theorem validRand_gHalf : ValidRand gHalf :=
  fun _ => ⟨by norm_num [gHalf], by norm_num [gHalf]⟩

theorem respawnDrawAlign_valid (g : ℕ → ℚ) (k : ℕ) (hg : ValidRand g) :
    ValidRand (respawnDrawAlign g k) := by
  intro n
  rcases n with _ | _ | _ | _ | _ | _ | _ | _ | _ | n
  · exact hg k
  · exact ⟨le_refl 0, by show (0 : ℚ) < 1; norm_num⟩
  · exact hg (k + 1)
  · exact hg (k + 2)
  · exact ⟨le_refl 0, by show (0 : ℚ) < 1; norm_num⟩
  · exact hg (k + 4)
  · exact hg (k + 5)
  · exact hg (k + 6)
  · exact hg (k + 7)
  · exact ⟨le_refl 0, by show (0 : ℚ) < 1; norm_num⟩

theorem integrateParticle_life (r dt : ℚ) (p : Particle) :
    (integrateParticle r dt p).life = p.life - dt := rfl

theorem updateList_length (g : ℕ → ℚ) (dt : ℚ) :
    ∀ (k : ℕ) (ps : List Particle), ((updateList g dt k ps).1).length = ps.length := by
  intro k ps
  induction ps generalizing k with
  | nil => rfl
  | cons p ps ih => simp [updateList, ih]

theorem update_length (g : ℕ → ℚ) (k : ℕ) (dt : ℚ) (rp : Vec3)
    (sys : FlameParticleSystem) :
    ((FlameParticleSystem.update g k dt rp sys).1).particles.length =
      sys.particles.length := by
  unfold FlameParticleSystem.update
  split
  · rfl
  · simp [updateList_length]

theorem runUpdates_length (g : ℕ → ℚ) :
    ∀ (steps : List (ℚ × Vec3)) (k : ℕ) (sys : FlameParticleSystem),
      (runUpdates g k steps sys).particles.length = sys.particles.length := by
  intro steps
  induction steps with
  | nil => intro k sys; rfl
  | cons s steps ih =>
    intro k sys
    show (runUpdates g _ steps (FlameParticleSystem.update g k s.1 s.2 sys).1).particles.length = _
    rw [ih, update_length]

theorem updateList_forall2 (g : ℕ → ℚ) (dt : ℚ) (hg : ValidRand g) :
    ∀ (k : ℕ) (ps : List Particle),
      List.Forall₂ (SlotStep g dt) ps (updateList g dt k ps).1 := by
  intro k ps
  induction ps generalizing k with
  | nil => exact List.Forall₂.nil
  | cons p ps ih =>
    refine List.Forall₂.cons ?_ (ih _)
    show SlotStep g dt p (updateParticle g k dt p).1
    unfold updateParticle SlotStep
    by_cases h : (integrateParticle (g k) dt p).life ≤ 0
    · right
      rw [integrateParticle_life] at h
      exact ⟨h, k + 1, by simp [updateParticle, integrateParticle_life, h]⟩
    · left
      rw [integrateParticle_life] at h
      push_neg at h
      exact ⟨h, g k, (hg k).1, (hg k).2,
        by simp [updateParticle, integrateParticle_life, not_le.mpr h]⟩

theorem resetParticle_particleInv (g : ℕ → ℚ) (hg : ValidRand g) (k : ℕ) :
    ParticleInv (resetParticle g k) := by
  obtain ⟨h0, h1⟩ := hg (k + 7)
  refine ⟨?_, ?_, rfl, rfl⟩
  · show (0 : ℚ) < 0.5 + g (k + 7); linarith
  · show (0.5 : ℚ) + g (k + 7) ≤ 1.5; linarith

theorem initParticle_particleInv (g : ℕ → ℚ) (hg : ValidRand g) (k : ℕ) :
    ParticleInv (initParticle g k) := by
  obtain ⟨h0, h1⟩ := hg (k + 8)
  refine ⟨?_, ?_, rfl, rfl⟩
  · show (0 : ℚ) < 0.5 + g (k + 8); linarith
  · show (0.5 : ℚ) + g (k + 8) ≤ 1.5; linarith

theorem slotStep_particleInv (g : ℕ → ℚ) (dt : ℚ) (hg : ValidRand g) (hdt : 0 ≤ dt)
    (p q : Particle) (hp : ParticleInv p) (hs : SlotStep g dt p q) :
    ParticleInv q := by
  obtain ⟨hp1, hp2, hp3, hp4⟩ := hp
  rcases hs with ⟨hlife, r, _, _, rfl⟩ | ⟨_, k, rfl⟩
  · exact ⟨by rw [integrateParticle_life]; exact hlife,
      by rw [integrateParticle_life]; linarith, hp3, hp4⟩
  · exact resetParticle_particleInv g hg k

theorem updateList_particleInv (g : ℕ → ℚ) (dt : ℚ) (hg : ValidRand g) (hdt : 0 ≤ dt) :
    ∀ (k : ℕ) (ps : List Particle), (∀ p ∈ ps, ParticleInv p) →
      ∀ q ∈ (updateList g dt k ps).1, ParticleInv q := by
  intro k ps
  induction ps generalizing k with
  | nil => intro _ q hq; simp [updateList] at hq
  | cons p ps ih =>
    intro hps q hq
    have hstep : SlotStep g dt p (updateParticle g k dt p).1 := by
      unfold updateParticle SlotStep
      by_cases h : (integrateParticle (g k) dt p).life ≤ 0
      · right
        rw [integrateParticle_life] at h
        exact ⟨h, k + 1, by simp [integrateParticle_life, h]⟩
      · left
        rw [integrateParticle_life] at h
        push_neg at h
        exact ⟨h, g k, (hg k).1, (hg k).2,
          by simp [integrateParticle_life, not_le.mpr h]⟩
    have hq' : q = (updateParticle g k dt p).1 ∨
        q ∈ (updateList g dt (updateParticle g k dt p).2 ps).1 := by
      simpa [updateList] using hq
    rcases hq' with rfl | hq'
    · exact slotStep_particleInv g dt hg hdt p _ (hps p (List.mem_cons_self p ps)) hstep
    · exact ih _ (fun p' hp' => hps p' (List.mem_cons_of_mem p hp')) q hq'

/-! ## Claim theorems: particle simulator -/

/-- C7: for every particle system state, `stop()` changes only the
visibility flag and leaves every slot untouched, so a subsequent `start()`
resumes each slot mid-cycle with the same remaining life. -/
theorem C7_stop_preserves_state (sys : FlameParticleSystem) :
    sys.stop.particles = sys.particles ∧
    sys.stop.visible = false ∧
    sys.stop.systemPos = sys.systemPos ∧
    sys.stop.start.particles = sys.particles ∧
    sys.stop.start = { sys with visible := true } ∧
    ∀ i, (sys.stop.start.particles.get? i).map Particle.life =
      (sys.particles.get? i).map Particle.life :=
  ⟨rfl, rfl, rfl, rfl, rfl, fun _ => rfl⟩

/-- C8: the pool size fixed at construction is invariant under one `update`
and under any finite sequence of updates, a capacity of zero keeps the pool
empty, while started every slot either keeps counting down or is respawned
within the same update pass, and while stopped `update` is the identity. -/
theorem C8_pool_size_invariant (g : ℕ → ℚ) (hg : ValidRand g) (k : ℕ) (dt : ℚ)
    (rp : Vec3) (sys : FlameParticleSystem) (steps : List (ℚ × Vec3)) :
    ((FlameParticleSystem.update g k dt rp sys).1).particles.length =
      sys.particles.length ∧
    (runUpdates g k steps sys).particles.length = sys.particles.length ∧
    (sys.particles = [] →
      ((FlameParticleSystem.update g k dt rp sys).1).particles = []) ∧
    (sys.visible = true →
      List.Forall₂ (SlotStep g dt) sys.particles
        ((FlameParticleSystem.update g k dt rp sys).1).particles) ∧
    (sys.visible = false → FlameParticleSystem.update g k dt rp sys = (sys, k)) := by
  refine ⟨update_length g k dt rp sys, runUpdates_length g steps k sys, ?_, ?_, ?_⟩
  · intro h
    have hlen := update_length g k dt rp sys
    rw [h] at hlen
    exact List.length_eq_zero.mp (by simpa using hlen)
  · intro hvis
    unfold FlameParticleSystem.update
    rw [hvis]
    simpa using updateList_forall2 g dt hg k sys.particles
  · intro hvis
    unfold FlameParticleSystem.update
    rw [hvis]
    simp

/-- Witness for C8 at a concrete one-slot system and a concrete step list. -/
theorem C8_pool_size_invariant_witness :
    ((FlameParticleSystem.update gZero 0 1 ⟨0, 0, 0⟩ sampleFlame).1).particles.length =
      sampleFlame.particles.length ∧
    (runUpdates gZero 0 [(1, ⟨0, 0, 0⟩)] sampleFlame).particles.length =
      sampleFlame.particles.length ∧
    (sampleFlame.particles = [] →
      ((FlameParticleSystem.update gZero 0 1 ⟨0, 0, 0⟩ sampleFlame).1).particles = []) ∧
    (sampleFlame.visible = true →
      List.Forall₂ (SlotStep gZero 1) sampleFlame.particles
        ((FlameParticleSystem.update gZero 0 1 ⟨0, 0, 0⟩ sampleFlame).1).particles) ∧
    (sampleFlame.visible = false →
      FlameParticleSystem.update gZero 0 1 ⟨0, 0, 0⟩ sampleFlame = (sampleFlame, 0)) :=
  C8_pool_size_invariant gZero validRand_gZero 0 1 ⟨0, 0, 0⟩ sampleFlame [(1, ⟨0, 0, 0⟩)]

/-- C10: initialization establishes and `update` with non-negative delta
preserves the invariant that every slot has strictly positive life of at
most 1.5 with red channel 1 and blue channel 0; respawn restores life into
`[0.5, 1.5)` with red 1 and blue 0. -/
theorem C10_life_color_invariant (g : ℕ → ℚ) (hg : ValidRand g) (dt : ℚ)
    (hdt : 0 ≤ dt) :
    (∀ k n, ∀ p ∈ initializeParticles g k n, ParticleInv p) ∧
    (∀ k rp sys, (∀ p ∈ sys.particles, ParticleInv p) →
      ∀ q ∈ ((FlameParticleSystem.update g k dt rp sys).1).particles, ParticleInv q) ∧
    (∀ k, 0.5 ≤ (resetParticle g k).life ∧ (resetParticle g k).life < 1.5 ∧
      (resetParticle g k).colR = 1 ∧ (resetParticle g k).colB = 0) := by
  refine ⟨?_, ?_, ?_⟩
  · intro k n
    induction n generalizing k with
    | zero => intro p hp; simp [initializeParticles] at hp
    | succ n ih =>
      intro p hp
      rcases List.mem_cons.mp hp with rfl | hp'
      · exact initParticle_particleInv g hg k
      · exact ih (k + 9) p hp'
  · intro k rp sys hsys q hq
    unfold FlameParticleSystem.update at hq
    by_cases hvis : sys.visible = false
    · rw [if_pos hvis] at hq
      exact hsys q hq
    · rw [if_neg hvis] at hq
      exact updateList_particleInv g dt hg hdt k sys.particles hsys q hq
  · intro k
    obtain ⟨h0, h1⟩ := hg (k + 7)
    refine ⟨?_, ?_, rfl, rfl⟩
    · show (0.5 : ℚ) ≤ 0.5 + g (k + 7); linarith
    · show (0.5 : ℚ) + g (k + 7) < 1.5; linarith

/-- Witness for C10 at the constant-zero random stream with delta 1. -/
theorem C10_life_color_invariant_witness :
    (∀ k n, ∀ p ∈ initializeParticles gZero k n, ParticleInv p) ∧
    (∀ k rp sys, (∀ p ∈ sys.particles, ParticleInv p) →
      ∀ q ∈ ((FlameParticleSystem.update gZero k 1 rp sys).1).particles, ParticleInv q) ∧
    (∀ k, 0.5 ≤ (resetParticle gZero k).life ∧ (resetParticle gZero k).life < 1.5 ∧
      (resetParticle gZero k).colR = 1 ∧ (resetParticle gZero k).colB = 0) :=
  C10_life_color_invariant gZero validRand_gZero 1 zero_le_one

/-- C5 counterexample: at a concrete one-slot started system, an `update`
with `deltaTime = 0` and wind draw 0 changes the x velocity of the slot
from 0 to -0.1, so the update is not a no-op on particle state. -/
theorem C5_counterexample :
    ((FlameParticleSystem.update gZero 0 0 ⟨0, 0, 0⟩ sampleFlame).1).particles.map
        (fun p => p.vel.x) = [-(1 / 10)] ∧
    sampleFlame.particles.map (fun p => p.vel.x) = [0] ∧
    ((FlameParticleSystem.update gZero 0 0 ⟨0, 0, 0⟩ sampleFlame).1).particles.map
        (fun p => p.vel.x) ≠
      sampleFlame.particles.map (fun p => p.vel.x) := by
  have h1 : ((FlameParticleSystem.update gZero 0 0 ⟨0, 0, 0⟩ sampleFlame).1).particles.map
      (fun p => p.vel.x) = [-(1 / 10)] := by
    norm_num [FlameParticleSystem.update, sampleFlame, updateList, updateParticle,
      integrateParticle, gZero]
  have h2 : sampleFlame.particles.map (fun p => p.vel.x) = [0] := by
    norm_num [sampleFlame]
  refine ⟨h1, h2, ?_⟩
  rw [h1, h2]
  norm_num

/-- C5 amended: an `update` with `deltaTime = 0` on a started system with
all lives positive raises no exception (the model is total) and leaves every
position, color, size, life, y velocity and z velocity unchanged, but every
slot still receives a wind perturbation `(r - 0.5) * 0.2` on its x
velocity. -/
theorem C5_zero_delta (g : ℕ → ℚ) (hg : ValidRand g) (k : ℕ) (rp : Vec3)
    (sys : FlameParticleSystem) (hvis : sys.visible = true)
    (hlife : ∀ p ∈ sys.particles, 0 < p.life) :
    List.Forall₂ (fun p q =>
      q.pos = p.pos ∧ q.vel.y = p.vel.y ∧ q.vel.z = p.vel.z ∧ q.colR = p.colR ∧
      q.colG = p.colG ∧ q.colB = p.colB ∧ q.size = p.size ∧ q.life = p.life ∧
      ∃ r, 0 ≤ r ∧ r < 1 ∧ q.vel.x = p.vel.x + (r - 0.5) * 0.2)
      sys.particles ((FlameParticleSystem.update g k 0 rp sys).1).particles := by
  unfold FlameParticleSystem.update
  rw [hvis]
  simp only [Bool.true_eq_false, if_false]
  show List.Forall₂ _ sys.particles (updateList g 0 k sys.particles).1
  have main : ∀ (k : ℕ) (ps : List Particle), (∀ p ∈ ps, 0 < p.life) →
      List.Forall₂ (fun p q =>
        q.pos = p.pos ∧ q.vel.y = p.vel.y ∧ q.vel.z = p.vel.z ∧ q.colR = p.colR ∧
        q.colG = p.colG ∧ q.colB = p.colB ∧ q.size = p.size ∧ q.life = p.life ∧
        ∃ r, 0 ≤ r ∧ r < 1 ∧ q.vel.x = p.vel.x + (r - 0.5) * 0.2)
        ps (updateList g 0 k ps).1 := by
    intro k ps
    induction ps generalizing k with
    | nil => intro _; exact List.Forall₂.nil
    | cons p ps ih =>
      intro hps
      have hp : 0 < p.life := hps p (List.mem_cons_self p ps)
      have hnot : ¬ (integrateParticle (g k) 0 p).life ≤ 0 := by
        rw [integrateParticle_life]
        push_neg
        linarith
      refine List.Forall₂.cons ?_ (ih _ (fun p' hp' => hps p' (List.mem_cons_of_mem p hp')))
      show (fun p q => _) p (updateParticle g k 0 p).1
      unfold updateParticle
      rw [if_neg hnot]
      refine ⟨?_, ?_, rfl, rfl, ?_, rfl, ?_, ?_, g k, (hg k).1, (hg k).2, rfl⟩
      · show (⟨p.pos.x + p.vel.x * 0, p.pos.y + p.vel.y * 0, p.pos.z + p.vel.z * 0⟩ : Vec3)
          = p.pos
        simp
      · show p.vel.y + 0 * 3 = p.vel.y
        ring
      · show p.colG - 0 = p.colG
        ring
      · show p.size - 0 * 0.5 = p.size
        ring
      · show p.life - 0 = p.life
        ring
  exact main k sys.particles hlife

/-- Witness for C5 amended at the concrete one-slot system. -/
theorem C5_zero_delta_witness :
    List.Forall₂ (fun p q =>
      q.pos = p.pos ∧ q.vel.y = p.vel.y ∧ q.vel.z = p.vel.z ∧ q.colR = p.colR ∧
      q.colG = p.colG ∧ q.colB = p.colB ∧ q.size = p.size ∧ q.life = p.life ∧
      ∃ r, 0 ≤ r ∧ r < 1 ∧ q.vel.x = p.vel.x + (r - 0.5) * 0.2)
      sampleFlame.particles
      ((FlameParticleSystem.update gZero 0 0 ⟨0, 0, 0⟩ sampleFlame).1).particles :=
  C5_zero_delta gZero validRand_gZero 0 ⟨0, 0, 0⟩ sampleFlame rfl (by decide)

/-- C4 counterexample: the vertical-velocity value -3.2 is attainable by the
initialization formula `-2 - r * 1.5` with a draw in `[0, 1)` but not by the
respawn formula `-2 - r`, so the respawn does not use the same random
distribution as initialization for the velocity. -/
theorem C4_counterexample :
    (∃ r : ℚ, 0 ≤ r ∧ r < 1 ∧ (initParticle (fun _ => r) 0).vel.y = -3.2) ∧
    ¬ (∃ r : ℚ, 0 ≤ r ∧ r < 1 ∧ (resetParticle (fun _ => r) 0).vel.y = -3.2) := by
  constructor
  · exact ⟨0.8, by norm_num, by norm_num, by norm_num [initParticle]⟩
  · rintro ⟨r, h0, h1, he⟩
    norm_num [resetParticle] at he
    have : r = 6 / 5 := by linarith
    rw [this] at h1
    norm_num at h1

/-- C4 amended: a respawned slot draws its horizontal positions, horizontal
velocities, color, size and life from the same distributions as
initialization (witnessed by re-indexing the respawn draws into an
initialization draw stream), its y position is reset to 0 instead of the
initial downward offset, but its vertical velocity is drawn as `-2 - r`
(range `(-3, -2]`) instead of the initialization formula `-2 - r * 1.5`
(range `(-3.5, -2]`). -/
theorem C4_respawn_distribution (g : ℕ → ℚ) (k : ℕ) (hg : ValidRand g) :
    ∃ g2 : ℕ → ℚ, ValidRand g2 ∧
      (resetParticle g k).pos.x = (initParticle g2 0).pos.x ∧
      (resetParticle g k).pos.y = 0 ∧
      (resetParticle g k).pos.z = (initParticle g2 0).pos.z ∧
      (resetParticle g k).vel.x = (initParticle g2 0).vel.x ∧
      (resetParticle g k).vel.z = (initParticle g2 0).vel.z ∧
      (resetParticle g k).colR = (initParticle g2 0).colR ∧
      (resetParticle g k).colG = (initParticle g2 0).colG ∧
      (resetParticle g k).colB = (initParticle g2 0).colB ∧
      (resetParticle g k).size = (initParticle g2 0).size ∧
      (resetParticle g k).life = (initParticle g2 0).life ∧
      (resetParticle g k).vel.y = -2 - g (k + 3) ∧
      -3 < (resetParticle g k).vel.y ∧ (resetParticle g k).vel.y ≤ -2 := by
  obtain ⟨h0, h1⟩ := hg (k + 3)
  refine ⟨respawnDrawAlign g k, respawnDrawAlign_valid g k hg,
    rfl, rfl, rfl, rfl, rfl, rfl, rfl, rfl, rfl, rfl, rfl, ?_, ?_⟩
  · show (-3 : ℚ) < -2 - g (k + 3)
    linarith
  · show (-2 : ℚ) - g (k + 3) ≤ -2
    linarith

/-- Witness for C4 amended at the constant-zero random stream. -/
theorem C4_respawn_distribution_witness :
    ∃ g2 : ℕ → ℚ, ValidRand g2 ∧
      (resetParticle gZero 0).pos.x = (initParticle g2 0).pos.x ∧
      (resetParticle gZero 0).pos.y = 0 ∧
      (resetParticle gZero 0).pos.z = (initParticle g2 0).pos.z ∧
      (resetParticle gZero 0).vel.x = (initParticle g2 0).vel.x ∧
      (resetParticle gZero 0).vel.z = (initParticle g2 0).vel.z ∧
      (resetParticle gZero 0).colR = (initParticle g2 0).colR ∧
      (resetParticle gZero 0).colG = (initParticle g2 0).colG ∧
      (resetParticle gZero 0).colB = (initParticle g2 0).colB ∧
      (resetParticle gZero 0).size = (initParticle g2 0).size ∧
      (resetParticle gZero 0).life = (initParticle g2 0).life ∧
      (resetParticle gZero 0).vel.y = -2 - gZero 3 ∧
      -3 < (resetParticle gZero 0).vel.y ∧ (resetParticle gZero 0).vel.y ≤ -2 :=
  C4_respawn_distribution gZero 0 validRand_gZero

/-! ## Development: launch sequencer lemmas -/

namespace SpaceshipAnimation

theorem customEase_one : customEase 1 = 1 := by
  norm_num [customEase]

theorem lerpVectors_one (a b : Vec3) : Vec3.lerpVectors a b 1 = b := by
  cases b with
  | mk x y z =>
    simp only [Vec3.lerpVectors, Vec3.mk.injEq]
    refine ⟨by ring, by ring, by ring⟩

theorem one_le_min_div (a c : ℚ) (hc : 0 < c) : 1 ≤ min (a / c) 1 ↔ c ≤ a := by
  rw [le_min_iff]
  simp only [le_refl, and_true]
  rw [le_div_iff₀ hc, one_mul]

theorem animate_of_not_animating (mp : MathPrims) (t : ℚ) (w : World)
    (h : w.anim.isAnimating = false) : animate mp t w = w := by
  unfold animate
  rw [h]
  simp

@[simp]
theorem applyComplexRotation_anim (mp : MathPrims) (p : ℚ) (w : World) :
    (applyComplexRotation mp p w).anim = w.anim := rfl

@[simp]
theorem applyAdvancedRotation_anim (mp : MathPrims) (now p : ℚ) (w : World) :
    (applyAdvancedRotation mp now p w).anim = w.anim := rfl

@[simp]
theorem updateWarpTunnel_anim (e p : ℚ) (w : World) :
    (updateWarpTunnel e p w).anim = w.anim := rfl

@[simp]
theorem updateCameraAnimation_anim (p : ℚ) (w : World) :
    (updateCameraAnimation p w).anim = w.anim := rfl

@[simp]
theorem updateEffects_anim (p : ℚ) (w : World) :
    (updateEffects p w).anim = w.anim := rfl

@[simp]
theorem applyAdvancedRotation_shipPos (mp : MathPrims) (now p : ℚ) (w : World) :
    (applyAdvancedRotation mp now p w).shipPos = w.shipPos := rfl

@[simp]
theorem updateWarpTunnel_shipPos (e p : ℚ) (w : World) :
    (updateWarpTunnel e p w).shipPos = w.shipPos := rfl

@[simp]
theorem updateCameraAnimation_shipPos (p : ℚ) (w : World) :
    (updateCameraAnimation p w).shipPos = w.shipPos := rfl

@[simp]
theorem updateEffects_shipPos (p : ℚ) (w : World) :
    (updateEffects p w).shipPos = w.shipPos := rfl

@[simp]
theorem cleanup_shipPos (w : World) : (cleanup w).shipPos = w.shipPos := rfl

@[simp]
theorem cleanup_anim_stage (w : World) : (cleanup w).anim.stage = w.anim.stage := rfl

theorem animate_buildup_ge (mp : MathPrims) (t : ℚ) (w : World)
    (hA : w.anim.isAnimating = true) (hS : w.anim.stage = .flameBuildup)
    (h : 1500 ≤ t - w.anim.startTime) :
    (animate mp t w).anim = { w.anim with stage := .launching, startTime := t } := by
  have hmin : 1 ≤ min ((t - w.anim.startTime) / FLAME_BUILDUP_DURATION) 1 := by
    rw [one_le_min_div _ _ (by norm_num [FLAME_BUILDUP_DURATION])]
    simpa [FLAME_BUILDUP_DURATION] using h
  simp only [animate, hA, hS, Bool.true_eq_false, if_false]
  show ({ handleFlameBuildup mp t (t - w.anim.startTime) w with rafPending := true }).anim = _
  simp only [handleFlameBuildup, ge_iff_le, hmin, if_true, applyComplexRotation_anim]
  cases hw : w.anim with
  | mk a b c d e =>
    rw [hw] at hA
    simp at hA
    simp [hA]

theorem animate_buildup_lt (mp : MathPrims) (t : ℚ) (w : World)
    (hA : w.anim.isAnimating = true) (hS : w.anim.stage = .flameBuildup)
    (h : t - w.anim.startTime < 1500) :
    (animate mp t w).anim = w.anim := by
  have hmin : ¬ 1 ≤ min ((t - w.anim.startTime) / FLAME_BUILDUP_DURATION) 1 := by
    rw [one_le_min_div _ _ (by norm_num [FLAME_BUILDUP_DURATION])]
    intro hc
    rw [show FLAME_BUILDUP_DURATION = (1500 : ℚ) from rfl] at hc
    linarith
  simp only [animate, hA, hS, Bool.true_eq_false, if_false]
  show ({ handleFlameBuildup mp t (t - w.anim.startTime) w with rafPending := true }).anim = _
  simp only [handleFlameBuildup, ge_iff_le, hmin, if_false, applyComplexRotation_anim]

@[simp]
theorem applyAdvancedRotation_flame (mp : MathPrims) (now p : ℚ) (w : World) :
    (applyAdvancedRotation mp now p w).flame = w.flame := rfl

@[simp]
theorem updateWarpTunnel_flame (e p : ℚ) (w : World) :
    (updateWarpTunnel e p w).flame = w.flame := rfl

@[simp]
theorem updateCameraAnimation_flame (p : ℚ) (w : World) :
    (updateCameraAnimation p w).flame = w.flame := rfl

@[simp]
theorem updateEffects_flame (p : ℚ) (w : World) :
    (updateEffects p w).flame = w.flame := rfl

@[simp]
theorem applyComplexRotation_flame (mp : MathPrims) (p : ℚ) (w : World) :
    (applyComplexRotation mp p w).flame = w.flame := rfl

@[simp]
theorem cleanup_flame_visible (w : World) : (cleanup w).flame.visible = false := rfl

@[simp]
theorem cleanup_controlsEnabled (w : World) : (cleanup w).controlsEnabled = true := rfl

@[simp]
theorem cleanup_warpVisible (w : World) : (cleanup w).warpVisible = false := rfl

@[simp]
theorem cleanup_onCompleteCalls (w : World) :
    (cleanup w).onCompleteCalls = w.onCompleteCalls := rfl

theorem animate_launch_ge (mp : MathPrims) (t : ℚ) (w : World)
    (hA : w.anim.isAnimating = true) (hS : w.anim.stage = .launching)
    (h : 4000 ≤ t - w.anim.startTime) :
    (animate mp t w).anim = { w.anim with isAnimating := false } ∧
    (animate mp t w).flame.visible = false ∧
    (animate mp t w).controlsEnabled = true ∧
    (animate mp t w).warpVisible = false := by
  have hmin : 1 ≤ min ((t - w.anim.startTime) / LAUNCH_DURATION) 1 := by
    rw [one_le_min_div _ _ (by norm_num [LAUNCH_DURATION])]
    simpa [LAUNCH_DURATION] using h
  simp only [animate, hA, hS, Bool.true_eq_false, if_false]
  refine ⟨?_, ?_, ?_, ?_⟩ <;>
    simp only [handleLaunching, ge_iff_le, hmin, if_true, completeAnimation, cleanup,
      applyAdvancedRotation_anim, updateWarpTunnel_anim, updateCameraAnimation_anim,
      updateEffects_anim, applyAdvancedRotation_flame, updateWarpTunnel_flame,
      updateCameraAnimation_flame, updateEffects_flame, FlameParticleSystem.stop, hS]

theorem animate_launch_lt (mp : MathPrims) (t : ℚ) (w : World)
    (hA : w.anim.isAnimating = true) (hS : w.anim.stage = .launching)
    (h : t - w.anim.startTime < 4000) :
    (animate mp t w).anim = w.anim := by
  have hmin : ¬ 1 ≤ min ((t - w.anim.startTime) / LAUNCH_DURATION) 1 := by
    rw [one_le_min_div _ _ (by norm_num [LAUNCH_DURATION])]
    intro hc
    rw [show LAUNCH_DURATION = (4000 : ℚ) from rfl] at hc
    linarith
  simp only [animate, hA, hS, Bool.true_eq_false, if_false]
  show ({ handleLaunching mp t (t - w.anim.startTime) w with rafPending := true }).anim = _
  simp only [handleLaunching, ge_iff_le, hmin, if_false,
    applyAdvancedRotation_anim, updateWarpTunnel_anim, updateCameraAnimation_anim,
    updateEffects_anim]

theorem animate_launch_shipPos (mp : MathPrims) (t : ℚ) (w : World)
    (hA : w.anim.isAnimating = true) (hS : w.anim.stage = .launching) :
    (animate mp t w).shipPos =
      Vec3.lerpVectors w.anim.startPosition w.anim.targetPosition
        (customEase (min ((t - w.anim.startTime) / LAUNCH_DURATION) 1)) := by
  simp only [animate, hA, hS, Bool.true_eq_false, if_false]
  show (handleLaunching mp t (t - w.anim.startTime) w).shipPos = _
  unfold handleLaunching
  by_cases hmin : 1 ≤ min ((t - w.anim.startTime) / LAUNCH_DURATION) 1 <;>
    simp [hmin, completeAnimation]

theorem animate_inBuildup (mp : MathPrims) (t : ℚ) (w : World) (h : InBuildup w) :
    (t - w.anim.startTime < 1500 ∧ InBuildup (animate mp t w) ∧
      (animate mp t w).anim = w.anim) ∨
    (1500 ≤ t - w.anim.startTime ∧ InLaunch (animate mp t w) ∧
      (animate mp t w).anim = { w.anim with stage := .launching, startTime := t }) := by
  obtain ⟨hA, hS⟩ := h
  by_cases hth : 1500 ≤ t - w.anim.startTime
  · right
    have he := animate_buildup_ge mp t w hA hS hth
    refine ⟨hth, ⟨?_, ?_⟩, he⟩
    · rw [he]; exact hA
    · rw [he]
  · left
    push_neg at hth
    have he := animate_buildup_lt mp t w hA hS hth
    exact ⟨hth, ⟨by rw [he]; exact hA, by rw [he]; exact hS⟩, he⟩

theorem animate_inLaunch (mp : MathPrims) (t : ℚ) (w : World) (h : InLaunch w) :
    (t - w.anim.startTime < 4000 ∧ InLaunch (animate mp t w) ∧
      (animate mp t w).anim = w.anim) ∨
    (4000 ≤ t - w.anim.startTime ∧ Finished (animate mp t w) ∧
      (animate mp t w).anim = { w.anim with isAnimating := false }) := by
  obtain ⟨hA, hS⟩ := h
  by_cases hth : 4000 ≤ t - w.anim.startTime
  · right
    have he := (animate_launch_ge mp t w hA hS hth).1
    refine ⟨hth, ⟨by rw [he], by rw [he]; exact hS⟩, he⟩
  · left
    push_neg at hth
    have he := animate_launch_lt mp t w hA hS hth
    exact ⟨hth, ⟨by rw [he]; exact hA, by rw [he]; exact hS⟩, he⟩

theorem runFrames_states_launch (mp : MathPrims) :
    ∀ (ts : List ℚ) (w : World), InLaunch w ∨ Finished w →
      InLaunch (runFrames mp w ts) ∨ Finished (runFrames mp w ts) := by
  intro ts
  induction ts with
  | nil => intro w h; exact h
  | cons t ts ih =>
    intro w h
    show InLaunch (runFrames mp (animate mp t w) ts) ∨ _
    refine ih (animate mp t w) ?_
    rcases h with h | h
    · rcases animate_inLaunch mp t w h with ⟨_, h2, _⟩ | ⟨_, h2, _⟩
      · exact Or.inl h2
      · exact Or.inr h2
    · rw [animate_of_not_animating mp t w h.1]
      exact Or.inr h

theorem runFrames_states (mp : MathPrims) :
    ∀ (ts : List ℚ) (w : World), InBuildup w →
      InBuildup (runFrames mp w ts) ∨ InLaunch (runFrames mp w ts) ∨
        Finished (runFrames mp w ts) := by
  intro ts
  induction ts with
  | nil => intro w h; exact Or.inl h
  | cons t ts ih =>
    intro w h
    show InBuildup (runFrames mp (animate mp t w) ts) ∨ _
    rcases animate_inBuildup mp t w h with ⟨_, h2, _⟩ | ⟨_, h2, _⟩
    · exact ih (animate mp t w) h2
    · exact Or.inr (runFrames_states_launch mp ts (animate mp t w) (Or.inl h2))

theorem countFB2L_zero (mp : MathPrims) :
    ∀ (ts : List ℚ) (w : World), InLaunch w ∨ Finished w → countFB2L mp w ts = 0 := by
  intro ts
  induction ts with
  | nil => intro w _; rfl
  | cons t ts ih =>
    intro w h
    have hnext : InLaunch (animate mp t w) ∨ Finished (animate mp t w) := by
      rcases h with h | h
      · rcases animate_inLaunch mp t w h with ⟨_, h2, _⟩ | ⟨_, h2, _⟩
        · exact Or.inl h2
        · exact Or.inr h2
      · rw [animate_of_not_animating mp t w h.1]
        exact Or.inr h
    have hcond : ¬ (w.anim.stage = .flameBuildup ∧
        (animate mp t w).anim.stage = .launching) := by
      intro hc
      rcases h with h | h <;>
      · rw [h.2] at hc
        exact absurd hc.1 (by simp)
    show (if _ then 1 else 0) + countFB2L mp (animate mp t w) ts = 0
    rw [if_neg hcond, ih (animate mp t w) hnext]

theorem countFB2L_le_one (mp : MathPrims) :
    ∀ (ts : List ℚ) (w : World), InBuildup w → countFB2L mp w ts ≤ 1 := by
  intro ts
  induction ts with
  | nil => intro w _; exact Nat.zero_le 1
  | cons t ts ih =>
    intro w h
    show (if _ then 1 else 0) + countFB2L mp (animate mp t w) ts ≤ 1
    rcases animate_inBuildup mp t w h with ⟨_, h2, he⟩ | ⟨_, h2, _⟩
    · have hcond : ¬ (w.anim.stage = .flameBuildup ∧
          (animate mp t w).anim.stage = .launching) := by
        intro hc
        rw [he, h.2] at hc
        exact absurd hc.2 (by simp)
      rw [if_neg hcond]
      simpa using ih (animate mp t w) h2
    · rw [countFB2L_zero mp ts (animate mp t w) (Or.inl h2)]
      split_ifs <;> simp

theorem countFB2L_eq_one (mp : MathPrims) :
    ∀ (ts : List ℚ) (w : World), InBuildup w →
      InLaunch (runFrames mp w ts) ∨ Finished (runFrames mp w ts) →
      countFB2L mp w ts = 1 := by
  intro ts
  induction ts with
  | nil =>
    intro w h hfin
    simp only [runFrames] at hfin
    rcases hfin with hfin | hfin
    · exact absurd (h.2.symm.trans hfin.2) (by simp)
    · exact absurd (h.1.symm.trans hfin.1) (by simp)
  | cons t ts ih =>
    intro w h hfin
    show (if _ then 1 else 0) + countFB2L mp (animate mp t w) ts = 1
    rcases animate_inBuildup mp t w h with ⟨_, h2, he⟩ | ⟨_, h2, _⟩
    · have hcond : ¬ (w.anim.stage = .flameBuildup ∧
          (animate mp t w).anim.stage = .launching) := by
        intro hc
        rw [he, h.2] at hc
        exact absurd hc.2 (by simp)
      rw [if_neg hcond]
      simpa using ih (animate mp t w) h2 hfin
    · have hcond : w.anim.stage = .flameBuildup ∧
          (animate mp t w).anim.stage = .launching := ⟨h.2, h2.2⟩
      rw [if_pos hcond, countFB2L_zero mp ts (animate mp t w) (Or.inl h2)]

theorem countCompletions_zero (mp : MathPrims) :
    ∀ (ts : List ℚ) (w : World), w.anim.isAnimating = false →
      countCompletions mp w ts = 0 := by
  intro ts
  induction ts with
  | nil => intro w _; rfl
  | cons t ts ih =>
    intro w h
    have he := animate_of_not_animating mp t w h
    have hcond : ¬ (w.anim.isAnimating = true ∧
        (animate mp t w).anim.isAnimating = false) := by
      intro hc
      exact absurd (h.symm.trans hc.1) (by simp)
    show (if _ then 1 else 0) + countCompletions mp (animate mp t w) ts = 0
    rw [if_neg hcond, he, ih w h]

theorem countCompletions_le_one (mp : MathPrims) :
    ∀ (ts : List ℚ) (w : World), InBuildup w ∨ InLaunch w →
      countCompletions mp w ts ≤ 1 := by
  intro ts
  induction ts with
  | nil => intro w _; exact Nat.zero_le 1
  | cons t ts ih =>
    intro w h
    show (if _ then 1 else 0) + countCompletions mp (animate mp t w) ts ≤ 1
    have hlive : ∀ v : World, InBuildup v ∨ InLaunch v → v.anim.isAnimating = true := by
      intro v hv; rcases hv with hv | hv <;> exact hv.1
    rcases h with h | h
    · have hnext : InBuildup (animate mp t w) ∨ InLaunch (animate mp t w) := by
        rcases animate_inBuildup mp t w h with ⟨_, h2, _⟩ | ⟨_, h2, _⟩
        · exact Or.inl h2
        · exact Or.inr h2
      have hcond : ¬ (w.anim.isAnimating = true ∧
          (animate mp t w).anim.isAnimating = false) := by
        intro hc
        exact absurd ((hlive _ hnext).symm.trans hc.2) (by simp)
      rw [if_neg hcond]
      simpa using ih (animate mp t w) hnext
    · rcases animate_inLaunch mp t w h with ⟨_, h2, _⟩ | ⟨_, h2, _⟩
      · have hcond : ¬ (w.anim.isAnimating = true ∧
            (animate mp t w).anim.isAnimating = false) := by
          intro hc
          exact absurd (h2.1.symm.trans hc.2) (by simp)
        rw [if_neg hcond]
        simpa using ih (animate mp t w) (Or.inr h2)
      · rw [countCompletions_zero mp ts (animate mp t w) h2.1]
        split_ifs <;> simp

theorem countCompletions_eq_one (mp : MathPrims) :
    ∀ (ts : List ℚ) (w : World), InBuildup w ∨ InLaunch w →
      (runFrames mp w ts).anim.isAnimating = false →
      countCompletions mp w ts = 1 := by
  intro ts
  induction ts with
  | nil =>
    intro w h hfin
    simp only [runFrames] at hfin
    rcases h with h | h <;> exact absurd (h.1.symm.trans hfin) (by simp)
  | cons t ts ih =>
    intro w h hfin
    show (if _ then 1 else 0) + countCompletions mp (animate mp t w) ts = 1
    rcases h with h | h
    · have hnext : InBuildup (animate mp t w) ∨ InLaunch (animate mp t w) := by
        rcases animate_inBuildup mp t w h with ⟨_, h2, _⟩ | ⟨_, h2, _⟩
        · exact Or.inl h2
        · exact Or.inr h2
      have hA2 : (animate mp t w).anim.isAnimating = true := by
        rcases hnext with h2 | h2 <;> exact h2.1
      have hcond : ¬ (w.anim.isAnimating = true ∧
          (animate mp t w).anim.isAnimating = false) := by
        intro hc
        exact absurd (hA2.symm.trans hc.2) (by simp)
      rw [if_neg hcond]
      simpa using ih (animate mp t w) hnext hfin
    · rcases animate_inLaunch mp t w h with ⟨_, h2, _⟩ | ⟨_, h2, _⟩
      · have hcond : ¬ (w.anim.isAnimating = true ∧
            (animate mp t w).anim.isAnimating = false) := by
          intro hc
          exact absurd (h2.1.symm.trans hc.2) (by simp)
        rw [if_neg hcond]
        simpa using ih (animate mp t w) (Or.inr h2) hfin
      · have hcond : w.anim.isAnimating = true ∧
            (animate mp t w).anim.isAnimating = false := ⟨h.1, h2.1⟩
        rw [if_pos hcond, countCompletions_zero mp ts (animate mp t w) h2.1]

@[simp]
theorem applyComplexRotation_onCompleteCalls (mp : MathPrims) (p : ℚ) (w : World) :
    (applyComplexRotation mp p w).onCompleteCalls = w.onCompleteCalls := rfl

@[simp]
theorem applyAdvancedRotation_onCompleteCalls (mp : MathPrims) (now p : ℚ) (w : World) :
    (applyAdvancedRotation mp now p w).onCompleteCalls = w.onCompleteCalls := rfl

@[simp]
theorem updateWarpTunnel_onCompleteCalls (e p : ℚ) (w : World) :
    (updateWarpTunnel e p w).onCompleteCalls = w.onCompleteCalls := rfl

@[simp]
theorem updateCameraAnimation_onCompleteCalls (p : ℚ) (w : World) :
    (updateCameraAnimation p w).onCompleteCalls = w.onCompleteCalls := rfl

@[simp]
theorem updateEffects_onCompleteCalls (p : ℚ) (w : World) :
    (updateEffects p w).onCompleteCalls = w.onCompleteCalls := rfl

theorem animate_onCompleteCalls (mp : MathPrims) (t : ℚ) (w : World) :
    (animate mp t w).onCompleteCalls = w.onCompleteCalls := by
  unfold animate
  by_cases hA : w.anim.isAnimating = false
  · rw [if_pos hA]
  · rw [if_neg hA]
    cases hS : w.anim.stage with
    | idle => simp [hS]
    | completed => simp [hS]
    | flameBuildup =>
      simp only [hS]
      show ({ handleFlameBuildup mp t (t - w.anim.startTime) w
        with rafPending := true }).onCompleteCalls = _
      unfold handleFlameBuildup
      by_cases hmin : 1 ≤ min ((t - w.anim.startTime) / FLAME_BUILDUP_DURATION) 1 <;>
        simp [hmin]
    | launching =>
      simp only [hS]
      show ({ handleLaunching mp t (t - w.anim.startTime) w
        with rafPending := true }).onCompleteCalls = _
      unfold handleLaunching
      by_cases hmin : 1 ≤ min ((t - w.anim.startTime) / LAUNCH_DURATION) 1 <;>
        simp [hmin, completeAnimation, cleanup]

theorem runFrames_onCompleteCalls (mp : MathPrims) :
    ∀ (ts : List ℚ) (w : World),
      (runFrames mp w ts).onCompleteCalls = w.onCompleteCalls := by
  intro ts
  induction ts with
  | nil => intro w; rfl
  | cons t ts ih =>
    intro w
    show (runFrames mp (animate mp t w) ts).onCompleteCalls = _
    rw [ih (animate mp t w), animate_onCompleteCalls]

theorem startAnimation_onCompleteCalls (g : ℕ → ℚ) (k : ℕ) (mp : MathPrims)
    (now : ℚ) (w : World) :
    (startAnimation g k mp now w).onCompleteCalls = w.onCompleteCalls := by
  unfold startAnimation
  split
  · rfl
  · rw [animate_onCompleteCalls]
    rfl

end SpaceshipAnimation

open SpaceshipAnimation

/-! ## Claim theorems: launch sequencer -/

/-- C9: calling `startAnimation()` while the sequencer is already animating
is a silent no-op: the entire world is returned unchanged, so nothing is
thrown, the start position is not re-captured, the target is not recomputed
and no second per-frame callback is scheduled. -/
theorem C9_reentrancy_noop (g : ℕ → ℚ) (k : ℕ) (mp : MathPrims) (now : ℚ)
    (w : World) (h : w.anim.isAnimating = true) :
    startAnimation g k mp now w = w := by
  unfold startAnimation
  simp [h]

/-- Witness for C9 at a concrete mid-launch world. -/
theorem C9_reentrancy_noop_witness :
    startAnimation gHalf 0 mpSample 123 launchingWorld = launchingWorld :=
  C9_reentrancy_noop gHalf 0 mpSample 123 launchingWorld rfl

/-- C6: during the launching stage, once stage-elapsed time reaches the
launch duration the progress clamps to 1, the cubic ease-in-out maps 1 to 1,
and the eased interpolation puts the ship exactly at the captured target
position. -/
theorem C6_end_position_exact (mp : MathPrims) (t : ℚ) (w : World)
    (hA : w.anim.isAnimating = true) (hS : w.anim.stage = .launching)
    (h : 4000 ≤ t - w.anim.startTime) :
    (animate mp t w).shipPos = w.anim.targetPosition ∧ customEase 1 = 1 := by
  refine ⟨?_, customEase_one⟩
  rw [animate_launch_shipPos mp t w hA hS]
  have hmin : min ((t - w.anim.startTime) / LAUNCH_DURATION) 1 = 1 := by
    refine min_eq_right ?_
    rw [le_div_iff₀ (by norm_num [LAUNCH_DURATION]), one_mul]
    simpa [LAUNCH_DURATION] using h
  rw [hmin, customEase_one, lerpVectors_one]

/-- Witness for C6 at a concrete mid-launch world and timestamp 4000. -/
theorem C6_end_position_exact_witness :
    (animate mpSample 4000 launchingWorld).shipPos =
      launchingWorld.anim.targetPosition ∧ customEase 1 = 1 :=
  C6_end_position_exact mpSample 4000 launchingWorld rfl rfl
    (by simp [launchingWorld])

/-- C1 (code bug): the `onComplete` constructor callback is never invoked by
the source.  The callback-invocation counter is unchanged by any launch run,
and a concrete run that demonstrably completes (animating flag cleared,
particle system stopped, controls re-enabled) has invoked the callback zero
times instead of the specified exactly once. -/
theorem C1_callback_never_invoked :
    (∀ (g : ℕ → ℚ) (k : ℕ) (mp : MathPrims) (t : ℚ) (w : World) (ts : List ℚ),
      (runFrames mp (startAnimation g k mp t w) ts).onCompleteCalls =
        w.onCompleteCalls) ∧
    (runFrames mpSample (startAnimation gHalf 0 mpSample 0 sampleWorld)
      [100, 1600, 6000]).anim.isAnimating = false ∧
    (runFrames mpSample (startAnimation gHalf 0 mpSample 0 sampleWorld)
      [100, 1600, 6000]).flame.visible = false ∧
    (runFrames mpSample (startAnimation gHalf 0 mpSample 0 sampleWorld)
      [100, 1600, 6000]).controlsEnabled = true ∧
    (runFrames mpSample (startAnimation gHalf 0 mpSample 0 sampleWorld)
      [100, 1600, 6000]).onCompleteCalls = 0 := by
  refine ⟨?_, ?_⟩
  · intro g k mp t w ts
    rw [runFrames_onCompleteCalls, startAnimation_onCompleteCalls]
  · norm_num [runFrames, animate, startAnimation, initializeAnimation, handleFlameBuildup,
      handleLaunching, applyComplexRotation, applyAdvancedRotation, updateWarpTunnel,
      updateCameraAnimation, updateEffects, completeAnimation, cleanup, customEase,
      Vec3.lerpVectors, Vec3.lerp, Vec3.add, FlameParticleSystem.start,
      FlameParticleSystem.stop, sampleWorld, sampleFlame, LAUNCH_DURATION,
      FLAME_BUILDUP_DURATION, LAUNCH_HEIGHT, gHalf, mpSample, rollSpeed, rollAmplitude,
      pitchSpeed, pitchAmplitude, yawSpeed, yawAmplitude, min_def]

/-- C2 counterexample: at a concrete launching-stage world with the stage
timer at 0, the frame at timestamp 4000 reaches the claimed
launching-to-completed threshold and does complete the sequence (the
animating flag falls), yet the stage variable does not transition to the
completed value: the source never assigns it. -/
theorem C2_counterexample :
    launchingWorld.anim.stage = AnimationStage.launching ∧
    launchingWorld.anim.isAnimating = true ∧
    4000 ≤ (4000 : ℚ) - launchingWorld.anim.startTime ∧
    (animate mpSample 4000 launchingWorld).anim.isAnimating = false ∧
    (animate mpSample 4000 launchingWorld).anim.stage ≠ AnimationStage.completed := by
  refine ⟨rfl, rfl, by simp [launchingWorld], ?_, ?_⟩
  · exact ((animate_launch_ge mpSample 4000 launchingWorld rfl rfl
      (by simp [launchingWorld])).1 ▸ rfl)
  · rw [(animate_launch_ge mpSample 4000 launchingWorld rfl rfl
      (by simp [launchingWorld])).1]
    simp [launchingWorld]

/-- C2 amended: for a single launch started in flame buildup and any
sequence of frame timestamps, the stage variable makes at most one (and,
whenever the run completes, exactly one) flame-buildup-to-launching
transition, which happens in a frame exactly when stage-elapsed time reaches
1500 ms and re-stamps the stage timer (the launching entry action); the
sequence performs at most one (and, on completion, exactly one) completion
event, the animating flag falling, which from the launching stage happens
exactly when stage-elapsed time reaches 4000 ms; the stage variable stays
`launching` at completion since the source never assigns `completed`; and a
single frame from flame buildup, however large its timestep, leaves the
sequence animating and never in the completed stage, so the launching stage
is never skipped. -/
theorem C2_stage_transitions (mp : MathPrims) (w : World) (ts : List ℚ)
    (hA : w.anim.isAnimating = true) (hS : w.anim.stage = .flameBuildup) :
    countFB2L mp w ts ≤ 1 ∧
    countCompletions mp w ts ≤ 1 ∧
    ((runFrames mp w ts).anim.isAnimating = false →
      countFB2L mp w ts = 1 ∧ countCompletions mp w ts = 1) ∧
    (∀ t, ((animate mp t w).anim.stage = .launching ↔ 1500 ≤ t - w.anim.startTime)) ∧
    (∀ t, 1500 ≤ t - w.anim.startTime → (animate mp t w).anim.startTime = t) ∧
    (∀ t, (animate mp t w).anim.isAnimating = true ∧
      (animate mp t w).anim.stage ≠ .completed) ∧
    (∀ (v : World) (t : ℚ), v.anim.isAnimating = true → v.anim.stage = .launching →
      (((animate mp t v).anim.isAnimating = false ↔ 4000 ≤ t - v.anim.startTime) ∧
        (animate mp t v).anim.stage = .launching)) := by
  have hB : InBuildup w := ⟨hA, hS⟩
  refine ⟨countFB2L_le_one mp ts w hB, countCompletions_le_one mp ts w (Or.inl hB),
    ?_, ?_, ?_, ?_, ?_⟩
  · intro hfin
    rcases runFrames_states mp ts w hB with hf | hf | hf
    · exact absurd (hf.1.symm.trans hfin) (by simp)
    · exact absurd (hf.1.symm.trans hfin) (by simp)
    · exact ⟨countFB2L_eq_one mp ts w hB (Or.inr hf),
        countCompletions_eq_one mp ts w (Or.inl hB) hfin⟩
  · intro t
    constructor
    · intro hl
      by_contra hth
      push_neg at hth
      rw [animate_buildup_lt mp t w hA hS hth] at hl
      exact absurd (hS.symm.trans hl) (by simp)
    · intro h
      rw [animate_buildup_ge mp t w hA hS h]
  · intro t h
    rw [animate_buildup_ge mp t w hA hS h]
  · intro t
    rcases animate_inBuildup mp t w hB with ⟨_, h2, _⟩ | ⟨_, h2, _⟩
    · exact ⟨h2.1, by rw [h2.2]; simp⟩
    · exact ⟨h2.1, by rw [h2.2]; simp⟩
  · intro v t hA2 hS2
    refine ⟨⟨?_, ?_⟩, ?_⟩
    · intro hfin
      by_contra hth
      push_neg at hth
      rw [animate_launch_lt mp t v hA2 hS2 hth] at hfin
      exact absurd (hA2.symm.trans hfin) (by simp)
    · intro h
      rw [(animate_launch_ge mp t v hA2 hS2 h).1]
    · rcases animate_inLaunch mp t v ⟨hA2, hS2⟩ with ⟨_, h2, _⟩ | ⟨_, h2, _⟩
      · exact h2.2
      · exact h2.2

/-- Witness for C2 amended at a concrete buildup-stage world and a frame
sequence that completes the launch. -/
theorem C2_stage_transitions_witness :
    countFB2L mpSample buildupWorld [1600, 6000] ≤ 1 ∧
    countCompletions mpSample buildupWorld [1600, 6000] ≤ 1 ∧
    ((runFrames mpSample buildupWorld [1600, 6000]).anim.isAnimating = false →
      countFB2L mpSample buildupWorld [1600, 6000] = 1 ∧
      countCompletions mpSample buildupWorld [1600, 6000] = 1) ∧
    (∀ t, ((animate mpSample t buildupWorld).anim.stage = .launching ↔
      1500 ≤ t - buildupWorld.anim.startTime)) ∧
    (∀ t, 1500 ≤ t - buildupWorld.anim.startTime →
      (animate mpSample t buildupWorld).anim.startTime = t) ∧
    (∀ t, (animate mpSample t buildupWorld).anim.isAnimating = true ∧
      (animate mpSample t buildupWorld).anim.stage ≠ .completed) ∧
    (∀ (v : World) (t : ℚ), v.anim.isAnimating = true → v.anim.stage = .launching →
      (((animate mpSample t v).anim.isAnimating = false ↔ 4000 ≤ t - v.anim.startTime) ∧
        (animate mpSample t v).anim.stage = .launching)) :=
  C2_stage_transitions mpSample buildupWorld [1600, 6000] rfl rfl

/-- C3 counterexample: with the ship at the origin and both random draws
equal to one half, the captured target position is `(0, 500, -100)`, which
cannot be written as the ship position plus the launch height on the
vertical axis plus offsets in `[-5, 5]` on the two horizontal axes: the
depth component carries an extra fixed displacement of -100 that the claim
omits. -/
theorem C3_counterexample :
    ¬ ∃ oX oZ : ℚ, -5 ≤ oX ∧ oX ≤ 5 ∧ -5 ≤ oZ ∧ oZ ≤ 5 ∧
      (startAnimation gHalf 0 mpSample 0 sampleWorld).anim.targetPosition =
        ⟨sampleWorld.shipPos.x + oX, sampleWorld.shipPos.y + 500,
          sampleWorld.shipPos.z + oZ⟩ := by
  have hval : (startAnimation gHalf 0 mpSample 0 sampleWorld).anim.targetPosition =
      ⟨0, 500, -100⟩ := by
    norm_num [startAnimation, animate, initializeAnimation, handleFlameBuildup,
      applyComplexRotation, Vec3.add, sampleWorld, sampleFlame, FlameParticleSystem.start,
      LAUNCH_HEIGHT, FLAME_BUILDUP_DURATION, gHalf, mpSample, min_def]
  rintro ⟨oX, oZ, _, _, h3, _, heq⟩
  rw [hval] at heq
  have hz := congrArg Vec3.z heq
  simp [sampleWorld] at hz
  have : oZ = -100 := by linarith
  rw [this] at h3
  norm_num at h3

/-- C3 amended: starting a launch from the non-animating state captures a
target equal to the ship position plus the launch height on the vertical
axis, a fixed displacement of -100 on the depth axis, and randomized offsets
in `[-5, 5)` on the horizontal and depth axes. -/
theorem C3_target_position (g : ℕ → ℚ) (k : ℕ) (mp : MathPrims) (now : ℚ)
    (w : World) (hg : ValidRand g) (h : w.anim.isAnimating = false) :
    ∃ oX oZ : ℚ, -5 ≤ oX ∧ oX < 5 ∧ -5 ≤ oZ ∧ oZ < 5 ∧
      (startAnimation g k mp now w).anim.targetPosition =
        ⟨w.shipPos.x + oX, w.shipPos.y + LAUNCH_HEIGHT, w.shipPos.z - 100 + oZ⟩ := by
  obtain ⟨hx0, hx1⟩ := hg k
  obtain ⟨hz0, hz1⟩ := hg (k + 1)
  refine ⟨(g k - 0.5) * 10, (g (k + 1) - 0.5) * 10,
    by linarith, by linarith, by linarith, by linarith, ?_⟩
  unfold startAnimation
  rw [h]
  simp only [Bool.false_eq_true, if_false]
  have hstep := animate_buildup_lt mp now (initializeAnimation g k now w) rfl rfl
    (by rw [show (initializeAnimation g k now w).anim.startTime = now from rfl]
        norm_num)
  rw [hstep]
  show Vec3.add ⟨w.shipPos.x, w.shipPos.y + LAUNCH_HEIGHT, w.shipPos.z - 100⟩
      ⟨(g k - 0.5) * 10, 0, (g (k + 1) - 0.5) * 10⟩ = _
  simp [Vec3.add]

/-- Witness for C3 amended at the constant-one-half random stream and the
idle sample world. -/
theorem C3_target_position_witness :
    ∃ oX oZ : ℚ, -5 ≤ oX ∧ oX < 5 ∧ -5 ≤ oZ ∧ oZ < 5 ∧
      (startAnimation gHalf 0 mpSample 0 sampleWorld).anim.targetPosition =
        ⟨sampleWorld.shipPos.x + oX, sampleWorld.shipPos.y + LAUNCH_HEIGHT,
          sampleWorld.shipPos.z - 100 + oZ⟩ :=
  C3_target_position gHalf 0 mpSample 0 sampleWorld validRand_gHalf rfl
